import Mathlib

/-!
# Market snapshot of `pkg/terminalstocks/cnn_market.go`

A shallow embedding of the `Market` type and of `NewMarket`, `Fetch`,
`FetchYahoo`, `Ok`, `isMarketOpen`, `assign` and `extract`, followed by
theorems about them.

Modelling conventions.

* A Go `map[string]string` is an association list with unique keys in
  insertion order; the nil map is `none`.  Reading never fails, writing to
  the nil map panics.
* `float64` is an arbitrary type `F`; the code only moves such values from the
  decoded response into `float2Str`.  `float2Str` is not part of
  `cnn_market.go` and is a parameter of every definition that calls it.
* The response body is taken after lexical analysis: either the text is not
  JSON at all, or it is a JSON value.  `unmarshal` performs the type-directed
  decoding that `json.Unmarshal` does for the target type
  `map[string]map[string][]map[string]interface{}`.
* A panic is a value of type `Panic`; functions that may panic return the
  receiver state reached together with the panic in flight.  The text that
  `fmt.Sprintf("%s", err)` prints for a recovered value is a parameter
  `describe`.
* A `*Market` method receives and returns the state of the one object
  `market` points to.  `FetchQQ` is not part of `cnn_market.go`; it is a
  parameter that maps the receiver state to the receiver state on return and
  to the object its result designates.
-/

namespace TerminalStocks

/-! ## Data model -/

/-- Values of `APISourceType` that `Fetch` switches on; `other` stands for any
value that is none of the seven named constants. -/
inductive APISourceType where
  | API_VENDOR_YAHOO
  | API_VENDOR_QQ
  | API_VENDOR_SINA
  | API_VENDOR_NETEASE
  | API_VENDOR_EASTMONEY
  | API_VENDOR_LIMITUP_EASTMONEY
  | API_VENDOR_LHB_EASTMONEY
  | other (code : Nat)
  deriving DecidableEq, Repr

/-- An allocated `map[string]string`. -/
abbrev Record := List (String × String)

/-- A `map[string]string` variable: `none` is the nil map. -/
abbrev GoMap := Option Record

/-- Store `m[k] = v` into an allocated map: overwrite in place when the key is
there, add it otherwise. -/
def Record.set : Record → String → String → Record
  | [], k, v => [(k, v)]
  | (k', v') :: rest, k, v =>
    if k' = k then (k', v) :: rest else (k', v') :: Record.set rest k v

/-- Read `m[k]`; `none` when the key is not in the map. -/
def Record.get : Record → String → Option String
  | [], _ => none
  | (k', v') :: rest, k => if k' = k then some v' else Record.get rest k

/-- Read `m[k]` from a map variable; the nil map has no keys. -/
def GoMap.get (m : GoMap) (k : String) : Option String :=
  match m with
  | none => none
  | some r => r.get k

/-- The struct `Market`.  The compiled pattern `regex` is carried as its source
text. -/
structure Market where
  vendor : APISourceType
  IsClosed : Bool
  Dow : GoMap
  Nasdaq : GoMap
  Sp500 : GoMap
  Tokyo : GoMap
  HongKong : GoMap
  London : GoMap
  Frankfurt : GoMap
  Yield : GoMap
  Oil : GoMap
  Yen : GoMap
  Euro : GoMap
  Gold : GoMap
  Szzs : GoMap
  Szcz : GoMap
  Hs300 : GoMap
  Cybz : GoMap
  regex : String
  errors : String
  url : String
  cookies : String
  crumb : String
  deriving DecidableEq, Repr

/-- A JSON value; numbers carry the `float64` they decode to. -/
inductive JSON (F : Type) where
  | null
  | bool (b : Bool)
  | num (x : F)
  | str (s : String)
  | arr (items : List (JSON F))
  | obj (members : List (String × JSON F))

/-- A response body: the decoder's complaint when the text is not JSON or holds
a number that does not fit `float64`, otherwise the JSON value written in it. -/
abbrev Body (F : Type) := Except String (JSON F)

/-- Values a panic can carry in `FetchYahoo` and the functions it calls. -/
inductive Panic where
  | requestError (msg : String)
  | transportError (msg : String)
  | readError (msg : String)
  | invalidJSON (msg : String)
  | unmarshalTypeError (value : String) (goType : String)
  | indexOutOfRange (index : Nat) (length : Nat)
  | interfaceConversion (dynamicType : String)
  | nilMapAssignment
  deriving DecidableEq, Repr

/-- What the network gave for the one GET request of `FetchYahoo`: the failure
of `http.NewRequest`, of `client.Do` or of `io.ReadAll`, or the body read. -/
inductive Response (F : Type) where
  | requestFailed (msg : String)
  | doFailed (msg : String)
  | readFailed (msg : String)
  | body (b : Body F)

/-- An element of the result list, decoded as `map[string]interface{}`. -/
abbrev Entry (F : Type) := List (String × JSON F)

/-- The decoded variable `d` of `extract`. -/
abbrev Envelope (F : Type) := List (String × List (String × List (Entry F)))

/-! ## Decoding -/

/-- Value of `m[k]` after the members of a JSON object were stored into a map
one after the other: the last member with that key. -/
def lookupLast {α : Type} (k : String) : List (String × α) → Option α
  | [] => none
  | (k', v) :: rest =>
    match lookupLast k rest with
    | some w => some w
    | none => if k' = k then some v else none

/-- The word `json.Unmarshal` uses for a value it cannot store. -/
def JSON.kind {F : Type} : JSON F → String
  | .null => "null"
  | .bool _ => "bool"
  | .num _ => "number"
  | .str _ => "string"
  | .arr _ => "array"
  | .obj _ => "object"

/-- Dynamic type of a value decoded into `interface{}`. -/
def JSON.dynamicType {F : Type} : JSON F → String
  | .null => "nil"
  | .bool _ => "bool"
  | .num _ => "float64"
  | .str _ => "string"
  | .arr _ => "[]interface {}"
  | .obj _ => "map[string]interface {}"

/-- Decode a value into `map[string]interface{}`: `null` leaves the nil map,
an object is stored as is, anything else is a type error. -/
def decodeEntry {F : Type} : JSON F → Except Panic (Entry F)
  | .null => .ok []
  | .obj members => .ok members
  | v => .error (.unmarshalTypeError v.kind "map[string]interface {}")

/-- Decode the items of an array one after the other. -/
def decodeEntries {F : Type} : List (JSON F) → Except Panic (List (Entry F))
  | [] => .ok []
  | v :: rest =>
    match decodeEntry v with
    | .error p => .error p
    | .ok e =>
      match decodeEntries rest with
      | .error p => .error p
      | .ok es => .ok (e :: es)

/-- Decode a value into `[]map[string]interface{}`. -/
def decodeSlice {F : Type} : JSON F → Except Panic (List (Entry F))
  | .null => .ok []
  | .arr items => decodeEntries items
  | v => .error (.unmarshalTypeError v.kind "[]map[string]interface {}")

/-- Decode the members of an object whose values are result lists. -/
def decodeInnerMembers {F : Type} :
    List (String × JSON F) → Except Panic (List (String × List (Entry F)))
  | [] => .ok []
  | (k, v) :: rest =>
    match decodeSlice v with
    | .error p => .error p
    | .ok s =>
      match decodeInnerMembers rest with
      | .error p => .error p
      | .ok ms => .ok ((k, s) :: ms)

/-- Decode a value into `map[string][]map[string]interface{}`. -/
def decodeInner {F : Type} : JSON F → Except Panic (List (String × List (Entry F)))
  | .null => .ok []
  | .obj members => decodeInnerMembers members
  | v => .error (.unmarshalTypeError v.kind "map[string][]map[string]interface {}")

/-- Decode the members of the top-level object. -/
def decodeOuterMembers {F : Type} : List (String × JSON F) → Except Panic (Envelope F)
  | [] => .ok []
  | (k, v) :: rest =>
    match decodeInner v with
    | .error p => .error p
    | .ok m =>
      match decodeOuterMembers rest with
      | .error p => .error p
      | .ok ms => .ok ((k, m) :: ms)

/-- The call `json.Unmarshal(body, &d)` with `d` an empty
`map[string]map[string][]map[string]interface{}`: the error it returns, or the
contents of `d`. -/
def unmarshal {F : Type} : Body F → Except Panic (Envelope F)
  | .error msg => .error (.invalidJSON msg)
  | .ok .null => .ok []
  | .ok (.obj members) => decodeOuterMembers members
  | .ok v =>
    .error (.unmarshalTypeError v.kind "map[string]map[string][]map[string]interface {}")

/-- The expression `d["quoteResponse"]["result"]`: a missing key reads as the
nil map, respectively the nil slice. -/
def resultsOf {F : Type} (d : Envelope F) : List (Entry F) :=
  (lookupLast "result" ((lookupLast "quoteResponse" d).getD [])).getD []

/-! ## The functions of `cnn_market.go` -/

/-- The expression `results[position][key].(float64)`, given the element. -/
def float64At {F : Type} (entry : Entry F) (key : String) : Except Panic F :=
  match lookupLast key entry with
  | some (.num x) => .ok x
  | some v => .error (.interfaceConversion v.dynamicType)
  | none => .error (.interfaceConversion "nil")

/-- The function `assign`. -/
def assign {F : Type} (float2Str : F → String) (results : List (Entry F)) (position : Nat)
    (changeAsPercent : Bool) : Except Panic Record :=
  match results[position]? with
  | none => .error (.indexOutOfRange position results.length)
  | some entry =>
    match float64At entry "regularMarketChange" with
    | .error p => .error p
    | .ok change =>
    let out := Record.set [] "change" (float2Str change)
    match float64At entry "regularMarketPrice" with
    | .error p => .error p
    | .ok latest =>
    let out := out.set "latest" (float2Str latest)
    match float64At entry "regularMarketChangePercent" with
    | .error p => .error p
    | .ok percent =>
    if changeAsPercent then
      .ok (out.set "change" (float2Str percent ++ "%"))
    else
      .ok (out.set "percent" (float2Str percent))

/-- The method `isMarketOpen`. -/
def isMarketOpen {F : Type} (_market : Market) (body : Body F) : Body F := body

/-- The statement `market.Yield["name"] = "10-year Yield"`. -/
def setYieldName (market : Market) : Except Panic Market :=
  match market.Yield with
  | none => .error .nilMapAssignment
  | some r => .ok { market with Yield := some (r.set "name" "10-year Yield") }

/-- The method `extract`: the state of the receiver when it returns or panics,
and the panic if there is one. -/
def extract {F : Type} (float2Str : F → String) (market : Market) (body : Body F) :
    Market × Option Panic :=
  match unmarshal body with
  | .error err => (market, some err)
  | .ok d =>
  let results := resultsOf d
  match assign float2Str results 0 false with
  | .error p => (market, some p)
  | .ok out =>
  let market := { market with Dow := some out }
  match assign float2Str results 1 false with
  | .error p => (market, some p)
  | .ok out =>
  let market := { market with Nasdaq := some out }
  match assign float2Str results 2 false with
  | .error p => (market, some p)
  | .ok out =>
  let market := { market with Sp500 := some out }
  match assign float2Str results 3 false with
  | .error p => (market, some p)
  | .ok out =>
  let market := { market with Tokyo := some out }
  match assign float2Str results 4 false with
  | .error p => (market, some p)
  | .ok out =>
  let market := { market with HongKong := some out }
  match assign float2Str results 5 false with
  | .error p => (market, some p)
  | .ok out =>
  let market := { market with London := some out }
  match assign float2Str results 6 false with
  | .error p => (market, some p)
  | .ok out =>
  let market := { market with Frankfurt := some out }
  match setYieldName market with
  | .error p => (market, some p)
  | .ok market =>
  match assign float2Str results 7 false with
  | .error p => (market, some p)
  | .ok out =>
  let market := { market with Yield := some out }
  match assign float2Str results 8 true with
  | .error p => (market, some p)
  | .ok out =>
  let market := { market with Oil := some out }
  match assign float2Str results 9 true with
  | .error p => (market, some p)
  | .ok out =>
  let market := { market with Yen := some out }
  match assign float2Str results 10 true with
  | .error p => (market, some p)
  | .ok out =>
  let market := { market with Euro := some out }
  match assign float2Str results 11 true with
  | .error p => (market, some p)
  | .ok out =>
  let market := { market with Gold := some out }
  (market, none)

/-- The body of `FetchYahoo` up to its return or panic, before the deferred
function runs. -/
def fetchYahooBody {F : Type} (float2Str : F → String) (market : Market)
    (response : Response F) : Market × Option Panic :=
  match response with
  | .requestFailed msg => (market, some (.requestError msg))
  | .doFailed msg => (market, some (.transportError msg))
  | .readFailed msg => (market, some (.readError msg))
  | .body b => extract float2Str market (isMarketOpen market b)

/-- The method `FetchYahoo`: the body, then the deferred function that
recovers a panic and writes `market.errors`.  The result `self` is the
receiver in every case. -/
def FetchYahoo {F : Type} (describe : Panic → String) (float2Str : F → String)
    (market : Market) (response : Response F) : Market :=
  match fetchYahooBody float2Str market response with
  | (market, some err) =>
    { market with errors := "Error fetching market data...\n" ++ describe err }
  | (market, none) => { market with errors := "" }

/-- The method `Ok`. -/
def Ok (market : Market) : Bool × String :=
  (decide (market.errors = ""), market.errors)

/-- What a call `market.FetchQQ()` leaves behind: the state of the receiver on
return, and the object the returned pointer designates when that is not the
receiver (`none` when the method returns its receiver, as `FetchYahoo` does).
The call is taken to return, with a pointer that is not nil. -/
structure QQCall where
  receiver : Market
  other : Option Market
  deriving DecidableEq, Repr

/-- The Market that the pointer returned by `FetchQQ` designates. -/
def QQCall.result (q : QQCall) : Market :=
  match q.other with
  | none => q.receiver
  | some o => o

/-- The method `Fetch`. -/
def Fetch {F : Type} (describe : Panic → String) (float2Str : F → String)
    (FetchQQ : Market → QQCall) (market : Market) (response : Response F) : Market :=
  match market.vendor with
  | .API_VENDOR_YAHOO => FetchYahoo describe float2Str market response
  | .API_VENDOR_QQ =>
    let q := FetchQQ (FetchYahoo describe float2Str market response)
    let mkt1 := q.receiver
    let mkt2 := q.result
    { mkt1 with Szzs := mkt2.Szzs, Szcz := mkt2.Szcz, Hs300 := mkt2.Hs300, Cybz := mkt2.Cybz }
  | .API_VENDOR_SINA =>
    let q := FetchQQ (FetchYahoo describe float2Str market response)
    let mkt1 := q.receiver
    let mkt2 := q.result
    { mkt1 with Szzs := mkt2.Szzs, Szcz := mkt2.Szcz, Hs300 := mkt2.Hs300, Cybz := mkt2.Cybz }
  | .API_VENDOR_NETEASE =>
    let q := FetchQQ (FetchYahoo describe float2Str market response)
    let mkt1 := q.receiver
    let mkt2 := q.result
    { mkt1 with Szzs := mkt2.Szzs, Szcz := mkt2.Szcz }
  | .API_VENDOR_EASTMONEY =>
    let q := FetchQQ (FetchYahoo describe float2Str market response)
    let mkt1 := q.receiver
    let mkt2 := q.result
    { mkt1 with Szzs := mkt2.Szzs, Szcz := mkt2.Szcz, Hs300 := mkt2.Hs300, Cybz := mkt2.Cybz }
  | .API_VENDOR_LIMITUP_EASTMONEY =>
    let q := FetchQQ (FetchYahoo describe float2Str market response)
    let mkt1 := q.receiver
    let mkt2 := q.result
    { mkt1 with Szzs := mkt2.Szzs, Szcz := mkt2.Szcz, Hs300 := mkt2.Hs300, Cybz := mkt2.Cybz }
  | .API_VENDOR_LHB_EASTMONEY =>
    let q := FetchQQ (FetchYahoo describe float2Str market response)
    let mkt1 := q.receiver
    let mkt2 := q.result
    { mkt1 with Szzs := mkt2.Szzs, Szcz := mkt2.Szcz, Hs300 := mkt2.Hs300, Cybz := mkt2.Cybz }
  | .other _ => FetchYahoo describe float2Str market response

/-- The constant `marketURL` with its two `%s` filled in. -/
def marketURL (crumb symbols : String) : String :=
  "https://query1.finance.yahoo.com/v7/finance/quote?crumb=" ++ crumb ++ "&symbols=" ++ symbols

/-- The constant `marketURLQueryParts`. -/
def marketURLQueryParts : String :=
  "&range=1d&interval=5m&indicators=close&includeTimestamps=false&includePrePost=false&corsDomain=finance.yahoo.com&.tsrc=finance"

/-- The pattern that `NewMarket` compiles: its rules joined. -/
def marketRules : List String :=
  let any := "\\s*(?:.+?)"
  let change := ">([\\+\\-]?[\\d\\.,]+)<\\/span>"
  let price := ">([\\d\\.,]+)<\\/span>"
  let percent := ">([\\+\\-]?[\\d\\.,]+%?)<"
  [ ">Dow<", any, percent, any, price, any, change, any,
    ">Nasdaq<", any, percent, any, price, any, change, any,
    "\">S&P<", any, percent, any, price, any, change, any,
    ">10\\-year yield<", any, price, any, percent, any,
    ">Oil<", any, price, any, percent, any,
    ">Yen<", any, price, any, percent, any,
    ">Euro<", any, price, any, percent, any,
    ">Gold<", any, price, any, percent, any,
    ">Nikkei 225<", any, percent, any, price, any, change, any,
    ">Hang Seng<", any, percent, any, price, any, change, any,
    ">FTSE 100<", any, percent, any, price, any, change, any,
    ">DAX<", any, percent, any, price, any, change, any ]

/-- The function `NewMarket`; the results of `fetchCookies` and `fetchCrumb`,
which are not part of `cnn_market.go`, are arguments. -/
def NewMarket (vendor : APISourceType) (cookies crumb : String) : Market :=
  { vendor := vendor
    IsClosed := false
    Dow := some []
    Nasdaq := some []
    Sp500 := some []
    Tokyo := some []
    HongKong := some []
    London := some []
    Frankfurt := some []
    Yield := some []
    Oil := some []
    Yen := some []
    Euro := some []
    Gold := some []
    Szzs := some []
    Szcz := some []
    Hs300 := some []
    Cybz := some []
    regex := String.join marketRules
    errors := ""
    url := marketURL crumb "^DJI,^IXIC,^GSPC,^N225,^HSI,^FTSE,^GDAXI,^TNX,CL=F,JPY=X,EUR=X,GC=F"
      ++ marketURLQueryParts
    cookies := cookies
    crumb := crumb }

/-! ## Vocabulary of the statements -/

/-- The flag `extract` passes to `assign` for a position: false for positions
0 to 7, true for positions 8 to 11. -/
def changeAsPercentAt (position : Nat) : Bool := decide (8 ≤ position)

/-- The record `extract` writes for a position of the result list: Dow,
Nasdaq, Sp500, Tokyo, HongKong, London, Frankfurt, Yield, Oil, Yen, Euro,
Gold. -/
def Market.record (m : Market) : Nat → GoMap
  | 0 => m.Dow
  | 1 => m.Nasdaq
  | 2 => m.Sp500
  | 3 => m.Tokyo
  | 4 => m.HongKong
  | 5 => m.London
  | 6 => m.Frankfurt
  | 7 => m.Yield
  | 8 => m.Oil
  | 9 => m.Yen
  | 10 => m.Euro
  | 11 => m.Gold
  | _ => none

/-- The twelve records filled from the primary response. -/
def Market.quoteRecords (m : Market) : List GoMap :=
  [m.Dow, m.Nasdaq, m.Sp500, m.Tokyo, m.HongKong, m.London, m.Frankfurt, m.Yield, m.Oil, m.Yen,
    m.Euro, m.Gold]

/-- The twelve records filled from the primary response, with the `IsClosed`
flag. -/
def Market.primaryView (m : Market) : Bool × List GoMap := (m.IsClosed, m.quoteRecords)

/-- The four records that `Fetch` takes from the result of `FetchQQ`. -/
def Market.cnView (m : Market) : List GoMap := [m.Szzs, m.Szcz, m.Hs300, m.Cybz]

/-- The overlay of all four CN records of `mkt2` onto `mkt1`. -/
def overlayFour (mkt1 mkt2 : Market) : Market :=
  { mkt1 with Szzs := mkt2.Szzs, Szcz := mkt2.Szcz, Hs300 := mkt2.Hs300, Cybz := mkt2.Cybz }

/-- The overlay of the records Szzs and Szcz of `mkt2` onto `mkt1`. -/
def overlayTwo (mkt1 mkt2 : Market) : Market :=
  { mkt1 with Szzs := mkt2.Szzs, Szcz := mkt2.Szcz }

/-- The number under `key` in the element at `position` of the result list;
`none` when the position is missing, the key is missing or the value is not a
number. -/
def numberAt {F : Type} (results : List (Entry F)) (position : Nat) (key : String) : Option F :=
  match results[position]? with
  | none => none
  | some entry =>
    match lookupLast key entry with
    | some (.num x) => some x
    | _ => none

/-- The position is present and its price, change and percent are numbers. -/
def validAt {F : Type} (results : List (Entry F)) (position : Nat) : Bool :=
  (numberAt results position "regularMarketPrice").isSome &&
  (numberAt results position "regularMarketChange").isSome &&
  (numberAt results position "regularMarketChangePercent").isSome

/-- The record the specification gives for a position, in the key order in
which `assign` first writes the keys: with the flag, `latest` and the percent
value followed by "%" as `change`; without it, `latest`, `change` and
`percent`. -/
def specRecord {F : Type} (float2Str : F → String) (changeAsPercent : Bool)
    (price change percent : F) : Record :=
  if changeAsPercent then
    [("change", float2Str percent ++ "%"), ("latest", float2Str price)]
  else
    [("change", float2Str change), ("latest", float2Str price), ("percent", float2Str percent)]

/-- The text ends in "%". -/
def hasPercentSuffix (s : String) : Bool := s.data.getLast? == some '%'

/-- The top-level envelope is malformed: the body does not decode into the
target type, or the key `quoteResponse` is missing, or its key `result` is. -/
def envelopeMalformed {F : Type} (body : Body F) : Bool :=
  match unmarshal body with
  | .error _ => true
  | .ok d =>
    match lookupLast "quoteResponse" d with
    | none => true
    | some q => (lookupLast "result" q).isNone

/-- The body decodes and positions 0 to 11 of its result list are all present
with numeric price, change and percent. -/
def wellFormed {F : Type} (body : Body F) : Bool :=
  match unmarshal body with
  | .error _ => false
  | .ok d => (List.range 12).all (fun i => validAt (resultsOf d) i)

/-- The text `FetchYahoo` leaves in `market.errors` for an outcome of its body. -/
def errorText (describe : Panic → String) : Option Panic → String
  | none => ""
  | some err => "Error fetching market data...\n" ++ describe err

/-! ## Worked inputs -/

/-- The members of a result element with the three fields as numbers. -/
def quoteEntry {F : Type} (price change percent : F) : Entry F :=
  [("regularMarketPrice", .num price), ("regularMarketChange", .num change),
    ("regularMarketChangePercent", .num percent)]

/-- Twelve decoded result elements; numbers are carried as the text they print
as. -/
def sampleEntries : List (Entry String) :=
  [quoteEntry "39000.1" "120.5" "0.31", quoteEntry "16000.2" "-80.1" "-0.50",
   quoteEntry "5100.3" "10.2" "0.20", quoteEntry "38000.4" "200.0" "0.53",
   quoteEntry "16500.5" "-30.3" "-0.18", quoteEntry "7700.6" "5.5" "0.07",
   quoteEntry "17800.7" "44.4" "0.25", quoteEntry "4.2" "0.03" "0.72",
   quoteEntry "70.1" "-1.5" "-2.3", quoteEntry "150.9" "0.4" "0.27",
   quoteEntry "0.92" "0.001" "0.11", quoteEntry "2050.8" "12.1" "0.59"]

/-- The sample elements with the price at position 3 sent as a string. -/
def brokenEntries : List (Entry String) :=
  sampleEntries.set 3
    [("regularMarketPrice", .str "n/a"), ("regularMarketChange", .num "200.0"),
      ("regularMarketChangePercent", .num "0.53")]

/-- A body in the shape `{"quoteResponse":{"result":[...],"error":null}}`. -/
def bodyOf {F : Type} (entries : List (Entry F)) : Body F :=
  .ok (.obj [("quoteResponse", .obj [("result", .arr (entries.map .obj)), ("error", .null)])])

/-- What a body made by `bodyOf` decodes to. -/
def envelopeOf {F : Type} (entries : List (Entry F)) : Envelope F :=
  [("quoteResponse", [("result", entries), ("error", [])])]

/-- The sample body with twelve valid elements. -/
def sampleBody : Body String := bodyOf sampleEntries

/-- What the sample body decodes to. -/
def sampleEnvelope : Envelope String := envelopeOf sampleEntries

/-- The sample body with the price at position 3 sent as a string. -/
def brokenBody : Body String := bodyOf brokenEntries

/-- What the broken body decodes to. -/
def brokenEnvelope : Envelope String := envelopeOf brokenEntries

/-- Twelve decoded result elements with rational numbers; position 8 holds the
price 70.1, the change -1.5 and the percent -2.3. -/
def rationalEntries : List (Entry ℚ) :=
  [quoteEntry 39000.1 120.5 0.31, quoteEntry 16000.2 (-80.1) (-0.5), quoteEntry 5100.3 10.2 0.2,
   quoteEntry 38000.4 200.0 0.53, quoteEntry 16500.5 (-30.3) (-0.18), quoteEntry 7700.6 5.5 0.07,
   quoteEntry 17800.7 44.4 0.25, quoteEntry 4.2 0.03 0.72, quoteEntry 70.1 (-1.5) (-2.3),
   quoteEntry 150.9 0.4 0.27, quoteEntry 0.92 0.001 0.11, quoteEntry 2050.8 12.1 0.59]

/-- The rational elements with the price at position 3 sent as a string. -/
def brokenRationalEntries : List (Entry ℚ) :=
  rationalEntries.set 3
    [("regularMarketPrice", .str "n/a"), ("regularMarketChange", .num 200.0),
      ("regularMarketChangePercent", .num 0.53)]

/-- A rendering of the three numbers at position 8 of `rationalEntries`. -/
def oilRender (q : ℚ) : String :=
  if q = -2.3 then "-2.3" else if q = -1.5 then "-1.5" else if q = 70.1 then "70.1" else "0.0"

/-- A body without the key `quoteResponse`. -/
def noEnvelopeBody : Body String :=
  .ok (.obj [("finance", .obj [("result", .null)])])

/-- The prices of `sampleEntries` by position. -/
def samplePrice (i : Nat) : String :=
  ["39000.1", "16000.2", "5100.3", "38000.4", "16500.5", "7700.6", "17800.7", "4.2", "70.1",
    "150.9", "0.92", "2050.8"].getD i ""

/-- The changes of `sampleEntries` by position. -/
def sampleChange (i : Nat) : String :=
  ["120.5", "-80.1", "10.2", "200.0", "-30.3", "5.5", "44.4", "0.03", "-1.5", "0.4", "0.001",
    "12.1"].getD i ""

/-- The percent changes of `sampleEntries` by position. -/
def samplePercent (i : Nat) : String :=
  ["0.31", "-0.50", "0.20", "0.53", "-0.18", "0.07", "0.25", "0.72", "-2.3", "0.27", "0.11",
    "0.59"].getD i ""

/-- A rendering of panics for the worked inputs. -/
def sampleDescribe : Panic → String
  | .requestError msg => msg
  | .transportError msg => msg
  | .readError msg => msg
  | .invalidJSON msg => msg
  | .unmarshalTypeError value goType =>
    "json: cannot unmarshal " ++ value ++ " into Go value of type " ++ goType
  | .indexOutOfRange _ _ => "runtime error: index out of range"
  | .interfaceConversion dynamicType =>
    "interface conversion: interface {} is " ++ dynamicType ++ ", not float64"
  | .nilMapAssignment => "assignment to entry in nil map"

/-- A Market as `NewMarket` returns it. -/
def sampleMarket : Market := NewMarket .API_VENDOR_YAHOO "A1=d" "crumb"

/-- Three numbers with the text they are rendered as. -/
inductive Sample where
  | oilPrice
  | oilChange
  | oilPercent
  deriving DecidableEq, Repr

/-- The rendering of the three sample numbers. -/
def Sample.render : Sample → String
  | .oilPrice => "70.1"
  | .oilChange => "-1.5"
  | .oilPercent => "-2.3"

/-- One result element holding the three sample numbers. -/
def oilEntry : Entry Sample := quoteEntry .oilPrice .oilChange .oilPercent

/-- An auxiliary fetch that leaves its receiver alone and returns another
Market, whose four CN records are filled. -/
def sampleFetchQQ (m : Market) : QQCall :=
  { receiver := m
    other := some { NewMarket m.vendor "" "" with
      Szzs := some [("latest", "3050.1")]
      Szcz := some [("latest", "9500.2")]
      Hs300 := some [("latest", "3550.3")]
      Cybz := some [("latest", "1850.4")] } }

/-! ## Lemmas -/

theorem Record.set_set_same (r : Record) (k v : String) : (r.set k v).set k v = r.set k v := by
  induction r with
  | nil => simp [Record.set]
  | cons kv rest ih =>
    obtain ⟨k', v'⟩ := kv
    by_cases h : k' = k
    · simp [Record.set, h]
    · simp [Record.set, h, ih]

theorem numberAt_eq_some {F : Type} {results : List (Entry F)} {i : Nat} {key : String} {x : F}
    (h : numberAt results i key = some x) :
    ∃ e, results[i]? = some e ∧ lookupLast key e = some (.num x) := by
  unfold numberAt at h
  split at h
  · simp at h
  · rename_i e he
    refine ⟨e, he, ?_⟩
    split at h
    · rename_i y hy
      simp only [Option.some.injEq] at h
      rw [hy, h]
    · simp at h

theorem assign_of_numbers {F : Type} (float2Str : F → String) {results : List (Entry F)}
    {i : Nat} (flag : Bool) {price change percent : F}
    (hp : numberAt results i "regularMarketPrice" = some price)
    (hc : numberAt results i "regularMarketChange" = some change)
    (hq : numberAt results i "regularMarketChangePercent" = some percent) :
    assign float2Str results i flag = .ok (specRecord float2Str flag price change percent) := by
  obtain ⟨e, he, hp'⟩ := numberAt_eq_some hp
  obtain ⟨e₂, he₂, hc'⟩ := numberAt_eq_some hc
  obtain ⟨e₃, he₃, hq'⟩ := numberAt_eq_some hq
  rw [he] at he₂ he₃
  cases he₂
  cases he₃
  cases flag <;> simp [assign, float64At, he, hp', hc', hq', specRecord, Record.set]

theorem assign_ok_inv {F : Type} (float2Str : F → String) {results : List (Entry F)}
    {i : Nat} {flag : Bool} {r : Record} (h : assign float2Str results i flag = .ok r) :
    ∃ price change percent,
      numberAt results i "regularMarketPrice" = some price ∧
      numberAt results i "regularMarketChange" = some change ∧
      numberAt results i "regularMarketChangePercent" = some percent ∧
      r = specRecord float2Str flag price change percent := by
  unfold assign float64At at h
  split at h
  · simp at h
  · rename_i e he
    split at h
    · simp at h
    · rename_i change hchange
      split at hchange
      · rename_i x hx
        cases hchange
        try dsimp only at h
        split at h
        · simp at h
        · rename_i latest hlatest
          split at hlatest
          · rename_i y hy
            cases hlatest
            try dsimp only at h
            split at h
            · simp at h
            · rename_i percent hpercent
              split at hpercent
              · rename_i z hz
                cases hpercent
                refine ⟨latest, change, percent, ?_, ?_, ?_, ?_⟩
                · simp [numberAt, he, hy]
                · simp [numberAt, he, hx]
                · simp [numberAt, he, hz]
                · cases flag <;> simp [specRecord, Record.set] at h ⊢ <;> exact h.symm
              · simp at hpercent
              · simp at hpercent
          · simp at hlatest
          · simp at hlatest
      · simp at hchange
      · simp at hchange

theorem extract_idem {F : Type} (float2Str : F → String) (market : Market) (body : Body F) :
    extract float2Str (extract float2Str market body).1 body = extract float2Str market body := by
  conv => rhs; unfold extract setYieldName
  conv => lhs; arg 2; arg 1; unfold extract setYieldName
  cases hY : market.Yield <;> dsimp only <;> repeat' split
  all_goals simp_all [extract, setYieldName, Record.set_set_same]

theorem extract_rest {F : Type} (float2Str : F → String) (market : Market) (body : Body F)
    (v : APISourceType) (c : Bool) (s₁ s₂ s₃ s₄ : GoMap) (rx e u ck cr : String) :
    extract float2Str
        { market with
          vendor := v, IsClosed := c, Szzs := s₁, Szcz := s₂, Hs300 := s₃, Cybz := s₄,
          regex := rx, errors := e, url := u, cookies := ck, crumb := cr } body
      = ({ (extract float2Str market body).1 with
            vendor := v, IsClosed := c, Szzs := s₁, Szcz := s₂, Hs300 := s₃, Cybz := s₄,
            regex := rx, errors := e, url := u, cookies := ck, crumb := cr },
          (extract float2Str market body).2) := by
  unfold extract setYieldName
  cases hY : market.Yield <;> dsimp only <;> repeat' split
  all_goals simp_all

theorem extract_keeps_yield_allocated {F : Type} (float2Str : F → String) (market : Market)
    (body : Body F) (h : market.Yield.isSome = true) :
    (extract float2Str market body).1.Yield.isSome = true := by
  obtain ⟨old, hold⟩ := Option.isSome_iff_exists.mp h
  unfold extract setYieldName
  simp only [hold]
  repeat' split
  all_goals simp [hold]

theorem fetchYahooBody_idem {F : Type} (float2Str : F → String) (market : Market)
    (response : Response F) :
    fetchYahooBody float2Str (fetchYahooBody float2Str market response).1 response
      = fetchYahooBody float2Str market response := by
  cases response with
  | body b => exact extract_idem float2Str market b
  | requestFailed msg => rfl
  | doFailed msg => rfl
  | readFailed msg => rfl

theorem fetchYahooBody_rest {F : Type} (float2Str : F → String) (market : Market)
    (response : Response F)
    (v : APISourceType) (c : Bool) (s₁ s₂ s₃ s₄ : GoMap) (rx e u ck cr : String) :
    fetchYahooBody float2Str
        { market with
          vendor := v, IsClosed := c, Szzs := s₁, Szcz := s₂, Hs300 := s₃, Cybz := s₄,
          regex := rx, errors := e, url := u, cookies := ck, crumb := cr } response
      = ({ (fetchYahooBody float2Str market response).1 with
            vendor := v, IsClosed := c, Szzs := s₁, Szcz := s₂, Hs300 := s₃, Cybz := s₄,
            regex := rx, errors := e, url := u, cookies := ck, crumb := cr },
          (fetchYahooBody float2Str market response).2) := by
  cases response with
  | body b => exact extract_rest float2Str market b v c s₁ s₂ s₃ s₄ rx e u ck cr
  | requestFailed msg => rfl
  | doFailed msg => rfl
  | readFailed msg => rfl

theorem FetchYahoo_eq {F : Type} (describe : Panic → String) (float2Str : F → String)
    (market : Market) (response : Response F) :
    FetchYahoo describe float2Str market response
      = { (fetchYahooBody float2Str market response).1 with
          errors := errorText describe (fetchYahooBody float2Str market response).2 } := by
  unfold FetchYahoo
  rcases fetchYahooBody float2Str market response with ⟨m, _ | p⟩ <;> rfl

theorem FetchYahoo_rest {F : Type} (describe : Panic → String) (float2Str : F → String)
    (market : Market) (response : Response F)
    (v : APISourceType) (c : Bool) (s₁ s₂ s₃ s₄ : GoMap) (rx e u ck cr : String) :
    FetchYahoo describe float2Str
        { market with
          vendor := v, IsClosed := c, Szzs := s₁, Szcz := s₂, Hs300 := s₃, Cybz := s₄,
          regex := rx, errors := e, url := u, cookies := ck, crumb := cr } response
      = { FetchYahoo describe float2Str market response with
            vendor := v, IsClosed := c, Szzs := s₁, Szcz := s₂, Hs300 := s₃, Cybz := s₄,
            regex := rx, url := u, cookies := ck, crumb := cr } := by
  rw [FetchYahoo_eq, FetchYahoo_eq, fetchYahooBody_rest]

theorem FetchYahoo_frame {F : Type} (describe : Panic → String) (float2Str : F → String)
    (market : Market) (response : Response F) :
    FetchYahoo describe float2Str market response
      = { FetchYahoo describe float2Str market response with
            vendor := market.vendor, IsClosed := market.IsClosed, Szzs := market.Szzs,
            Szcz := market.Szcz, Hs300 := market.Hs300, Cybz := market.Cybz,
            regex := market.regex, url := market.url, cookies := market.cookies,
            crumb := market.crumb } :=
  FetchYahoo_rest describe float2Str market response market.vendor market.IsClosed market.Szzs
    market.Szcz market.Hs300 market.Cybz market.regex market.errors market.url market.cookies
    market.crumb

theorem FetchYahoo_idem {F : Type} (describe : Panic → String) (float2Str : F → String)
    (market : Market) (response : Response F) :
    FetchYahoo describe float2Str (FetchYahoo describe float2Str market response) response
      = FetchYahoo describe float2Str market response := by
  rw [FetchYahoo_eq describe float2Str market response]
  have h := fetchYahooBody_rest float2Str (fetchYahooBody float2Str market response).1 response
    (fetchYahooBody float2Str market response).1.vendor
    (fetchYahooBody float2Str market response).1.IsClosed
    (fetchYahooBody float2Str market response).1.Szzs
    (fetchYahooBody float2Str market response).1.Szcz
    (fetchYahooBody float2Str market response).1.Hs300
    (fetchYahooBody float2Str market response).1.Cybz
    (fetchYahooBody float2Str market response).1.regex
    (errorText describe (fetchYahooBody float2Str market response).2)
    (fetchYahooBody float2Str market response).1.url
    (fetchYahooBody float2Str market response).1.cookies
    (fetchYahooBody float2Str market response).1.crumb
  rw [FetchYahoo_eq, h, fetchYahooBody_idem]

theorem assign_ok_of_valid {F : Type} (float2Str : F → String) {results : List (Entry F)}
    {i : Nat} (flag : Bool) (h : validAt results i = true) :
    ∃ r, assign float2Str results i flag = .ok r := by
  simp only [validAt, Bool.and_eq_true, Option.isSome_iff_exists] at h
  obtain ⟨⟨⟨p, hp⟩, ⟨c, hc⟩⟩, ⟨q, hq⟩⟩ := h
  exact ⟨_, assign_of_numbers float2Str flag hp hc hq⟩

/-! ## Theorems -/

/-- C1: when the body decodes and positions 0 to 11 of its result list each
carry a numeric regularMarketPrice, regularMarketChange and
regularMarketChangePercent, `extract` (on a Market whose Yield map is
allocated, as `NewMarket` leaves it) returns without panic and has filled
exactly the records Dow, Nasdaq, Sp500, Tokyo, HongKong, London, Frankfurt,
Yield, Oil, Yen, Euro, Gold from positions 0 to 11 in that order: for
positions 0 to 7 the record is change = float2Str(change), latest =
float2Str(price), percent = float2Str(changePercent); for positions 8 to 11 it
is change = float2Str(changePercent) followed by "%", latest =
float2Str(price).  Every other field of the Market is as before. -/
theorem extract_fills_twelve_records {F : Type} (float2Str : F → String) (market : Market)
    (body : Body F) (d : Envelope F) (yield : Record) (price change percent : Nat → F)
    (hd : unmarshal body = .ok d)
    (hnum : ∀ i, i < 12 →
      numberAt (resultsOf d) i "regularMarketPrice" = some (price i) ∧
      numberAt (resultsOf d) i "regularMarketChange" = some (change i) ∧
      numberAt (resultsOf d) i "regularMarketChangePercent" = some (percent i))
    (hy : market.Yield = some yield) :
    extract float2Str market body =
      ({ market with
          Dow := some [("change", float2Str (change 0)), ("latest", float2Str (price 0)),
            ("percent", float2Str (percent 0))]
          Nasdaq := some [("change", float2Str (change 1)), ("latest", float2Str (price 1)),
            ("percent", float2Str (percent 1))]
          Sp500 := some [("change", float2Str (change 2)), ("latest", float2Str (price 2)),
            ("percent", float2Str (percent 2))]
          Tokyo := some [("change", float2Str (change 3)), ("latest", float2Str (price 3)),
            ("percent", float2Str (percent 3))]
          HongKong := some [("change", float2Str (change 4)), ("latest", float2Str (price 4)),
            ("percent", float2Str (percent 4))]
          London := some [("change", float2Str (change 5)), ("latest", float2Str (price 5)),
            ("percent", float2Str (percent 5))]
          Frankfurt := some [("change", float2Str (change 6)), ("latest", float2Str (price 6)),
            ("percent", float2Str (percent 6))]
          Yield := some [("change", float2Str (change 7)), ("latest", float2Str (price 7)),
            ("percent", float2Str (percent 7))]
          Oil := some [("change", float2Str (percent 8) ++ "%"), ("latest", float2Str (price 8))]
          Yen := some [("change", float2Str (percent 9) ++ "%"), ("latest", float2Str (price 9))]
          Euro := some [("change", float2Str (percent 10) ++ "%"),
            ("latest", float2Str (price 10))]
          Gold := some [("change", float2Str (percent 11) ++ "%"),
            ("latest", float2Str (price 11))] },
        none) := by
  have a (i : Nat) (hi : i < 12) (flag : Bool) :=
    assign_of_numbers float2Str flag (hnum i hi).1 (hnum i hi).2.1 (hnum i hi).2.2
  simp only [extract, hd, setYieldName, hy,
    a 0 (by decide), a 1 (by decide), a 2 (by decide), a 3 (by decide), a 4 (by decide),
    a 5 (by decide), a 6 (by decide), a 7 (by decide), a 8 (by decide), a 9 (by decide),
    a 10 (by decide), a 11 (by decide)]
  simp [specRecord]

/-- Witness of C1 on the sample body: the hypotheses hold there, and the Gold
and Yield records come out as stated. -/
theorem extract_fills_twelve_records_witness :
    unmarshal sampleBody = .ok sampleEnvelope ∧
    (extract (fun s => s) sampleMarket sampleBody).1.Gold
      = some [("change", "0.59%"), ("latest", "2050.8")] ∧
    (extract (fun s => s) sampleMarket sampleBody).1.Yield
      = some [("change", "0.03"), ("latest", "4.2"), ("percent", "0.72")] ∧
    (extract (fun s => s) sampleMarket sampleBody).2 = none := by
  have h := extract_fills_twelve_records (fun s => s) sampleMarket sampleBody sampleEnvelope []
    samplePrice sampleChange samplePercent rfl (by decide) (by decide)
  refine ⟨rfl, ?_, ?_, ?_⟩
  · rw [h]; decide
  · rw [h]; decide
  · rw [h]

/-- C2, as the code behaves: a body that decodes and whose position 8 has a
numeric price, regularMarketChange = -1.5 and regularMarketChangePercent =
-2.3, with the price at position 3 sent as a string.  Whatever `float2Str` is,
`extract` panics at position 3 and leaves the Oil record of a fresh Market as
`NewMarket` made it: empty, with no change key and no latest key. -/
theorem oil_not_reached_counterexample :
    unmarshal (bodyOf brokenRationalEntries) = .ok (envelopeOf brokenRationalEntries) ∧
    numberAt (resultsOf (envelopeOf brokenRationalEntries)) 8 "regularMarketPrice"
      = some 70.1 ∧
    numberAt (resultsOf (envelopeOf brokenRationalEntries)) 8 "regularMarketChange"
      = some (-1.5) ∧
    numberAt (resultsOf (envelopeOf brokenRationalEntries)) 8 "regularMarketChangePercent"
      = some (-2.3) ∧
    ∀ float2Str : ℚ → String,
      (extract float2Str sampleMarket (bodyOf brokenRationalEntries)).1.Oil = some [] ∧
      (extract float2Str sampleMarket (bodyOf brokenRationalEntries)).1.Oil.get "change"
        = none ∧
      (extract float2Str sampleMarket (bodyOf brokenRationalEntries)).1.Oil.get "latest"
        = none ∧
      (extract float2Str sampleMarket (bodyOf brokenRationalEntries)).2
        = some (.interfaceConversion "string") :=
  ⟨rfl, rfl, rfl, rfl, fun _ => ⟨rfl, rfl, rfl, rfl⟩⟩

/-- C2, amended: for every number type with decimal literals, when the body
decodes, the Yield map is allocated, positions 0 to 7 are present with numeric
price, change and percent, and position 8 has a numeric price,
regularMarketChange = -1.5 and regularMarketChangePercent = -2.3, the Oil
record after `extract` is exactly change = float2Str(-2.3) followed by "%",
latest = float2Str(price).  Its keys are change and latest only, so it has no
percent key; with `float2Str` rendering -2.3 as "-2.3" its change is "-2.3%";
and with `float2Str` rendering -1.5 without "%" its change is not the
rendering of the absolute change -1.5.  Positions 9 to 11 need not be
valid. -/
theorem oil_change_is_percent {F : Type} [Neg F] [OfScientific F] (float2Str : F → String)
    (market : Market) (body : Body F) (d : Envelope F) (yield : Record) (price : F)
    (hd : unmarshal body = .ok d)
    (hy : market.Yield = some yield)
    (hbefore : ∀ i, i < 8 → validAt (resultsOf d) i = true)
    (hprice : numberAt (resultsOf d) 8 "regularMarketPrice" = some price)
    (hchange : numberAt (resultsOf d) 8 "regularMarketChange" = some (-1.5))
    (hpercent : numberAt (resultsOf d) 8 "regularMarketChangePercent" = some (-2.3))
    (hrender : float2Str (-2.3) = "-2.3")
    (hplain : '%' ∉ (float2Str (-1.5)).data) :
    (extract float2Str market body).1.Oil
        = some [("change", float2Str (-2.3) ++ "%"), ("latest", float2Str price)] ∧
      (extract float2Str market body).1.Oil.get "change" = some "-2.3%" ∧
      (extract float2Str market body).1.Oil.get "latest" = some (float2Str price) ∧
      (extract float2Str market body).1.Oil.get "percent" = none ∧
      (∀ k, (extract float2Str market body).1.Oil.get k ≠ none ↔
        (k = "change" ∨ k = "latest")) ∧
      (extract float2Str market body).1.Oil.get "change" ≠ some (float2Str (-1.5)) := by
  obtain ⟨r0, h0⟩ := assign_ok_of_valid float2Str false (hbefore 0 (by decide))
  obtain ⟨r1, h1⟩ := assign_ok_of_valid float2Str false (hbefore 1 (by decide))
  obtain ⟨r2, h2⟩ := assign_ok_of_valid float2Str false (hbefore 2 (by decide))
  obtain ⟨r3, h3⟩ := assign_ok_of_valid float2Str false (hbefore 3 (by decide))
  obtain ⟨r4, h4⟩ := assign_ok_of_valid float2Str false (hbefore 4 (by decide))
  obtain ⟨r5, h5⟩ := assign_ok_of_valid float2Str false (hbefore 5 (by decide))
  obtain ⟨r6, h6⟩ := assign_ok_of_valid float2Str false (hbefore 6 (by decide))
  obtain ⟨r7, h7⟩ := assign_ok_of_valid float2Str false (hbefore 7 (by decide))
  have h8 := assign_of_numbers float2Str true hprice hchange hpercent
  have hoil : (extract float2Str market body).1.Oil
      = some [("change", float2Str (-2.3) ++ "%"), ("latest", float2Str price)] := by
    simp only [extract, hd, setYieldName, hy, h0, h1, h2, h3, h4, h5, h6, h7, h8]
    repeat' split
    all_goals simp [specRecord]
  have hsuffix : '%' ∈ ("-2.3%" : String).data := by decide
  rw [hoil]
  refine ⟨rfl, ?_, ?_, ?_, ?_, ?_⟩
  · simp [GoMap.get, Record.get, hrender]
  · simp [GoMap.get, Record.get]
  · simp [GoMap.get, Record.get]
  · intro k
    simp only [GoMap.get, Record.get]
    constructor
    · intro hk
      split_ifs at hk with h1 h2
      · exact Or.inl h1.symm
      · exact Or.inr h2.symm
      · exact absurd rfl hk
    · rintro (rfl | rfl) <;> simp
  · simp only [GoMap.get, Record.get, if_true, ne_eq, Option.some.injEq, hrender]
    intro heq
    have hmem : '%' ∈ (float2Str (-1.5)).data := by
      rw [← heq]
      exact hsuffix
    exact hplain hmem

/-- Witness of the amended C2 on the rational sample, whose position 8 holds
70.1, -1.5 and -2.3. -/
theorem oil_change_is_percent_witness :
    numberAt (resultsOf (envelopeOf rationalEntries)) 8 "regularMarketChange" = some (-1.5) ∧
    numberAt (resultsOf (envelopeOf rationalEntries)) 8 "regularMarketChangePercent"
      = some (-2.3) ∧
    oilRender (-2.3) = "-2.3" ∧
    (extract oilRender sampleMarket (bodyOf rationalEntries)).1.Oil.get "change"
      = some "-2.3%" ∧
    (extract oilRender sampleMarket (bodyOf rationalEntries)).1.Oil.get "percent" = none := by
  have hrender : oilRender (-2.3) = "-2.3" := by simp [oilRender]
  have htext : oilRender (-1.5) = "-1.5" := by norm_num [oilRender]
  have h := oil_change_is_percent oilRender sampleMarket (bodyOf rationalEntries)
    (envelopeOf rationalEntries) [] 70.1 rfl rfl (by decide) rfl rfl rfl hrender
    (by rw [htext]; decide)
  exact ⟨rfl, rfl, hrender, h.2.1, h.2.2.2.1⟩

theorem errorText_ne_empty (s : String) : "Error fetching market data...\n" ++ s ≠ "" := by
  intro h
  have h2 := congrArg String.length h
  simp only [String.length_append] at h2
  have h3 : "Error fetching market data...\n".length = 30 := by decide
  have h4 : "".length = 0 := rfl
  omega

theorem assign_error_of_invalid {F : Type} (float2Str : F → String) {results : List (Entry F)}
    {i : Nat} (flag : Bool) (h : validAt results i = false) :
    ∃ p, assign float2Str results i flag = .error p := by
  cases ha : assign float2Str results i flag with
  | error p => exact ⟨p, rfl⟩
  | ok r =>
    obtain ⟨p, c, q, hp, hc, hq, -⟩ := assign_ok_inv float2Str ha
    simp [validAt, hp, hc, hq] at h

/-- C3, as the code behaves: a body that decodes, position 11 present and
valid, and the price at position 3 sent as a string.  `FetchYahoo` on a fresh
Market leaves Gold (and every record from position 3 on) as `NewMarket` made
it, and `Ok` returns false with a message. -/
theorem fetch_bad_position_counterexample :
    (unmarshal brokenBody).toOption.map (fun d => validAt (resultsOf d) 3) = some false ∧
    (unmarshal brokenBody).toOption.map (fun d => validAt (resultsOf d) 11) = some true ∧
    (FetchYahoo sampleDescribe (fun s => s) sampleMarket (.body brokenBody)).Dow
      = some [("change", "120.5"), ("latest", "39000.1"), ("percent", "0.31")] ∧
    (FetchYahoo sampleDescribe (fun s => s) sampleMarket (.body brokenBody)).Gold = some [] ∧
    (FetchYahoo sampleDescribe (fun s => s) sampleMarket (.body brokenBody)).Oil = some [] ∧
    Ok (FetchYahoo sampleDescribe (fun s => s) sampleMarket (.body brokenBody))
      = (false, "Error fetching market data...\ninterface conversion: interface {} is string, not float64") := by
  refine ⟨by decide, by decide, by decide, by decide, by decide, by decide⟩

/-- C3, amended: when the body decodes, the Yield map is allocated and `k` in
0..11 is the first position that is missing or has a non-numeric price,
change or percent, `FetchYahoo` extracts positions 0 to k-1 and nothing else:
every record at a position after `k` is as it was before the cycle, whatever
the response holds there; the record at position `k` is as before too, except
that for k = 7 the old Yield map has gained the key name; and the error state
is set: `Ok` returns false with "Error fetching market data..." and the
description of the panic raised at position `k`. -/
theorem fetch_stops_at_first_bad_position {F : Type} (describe : Panic → String)
    (float2Str : F → String) (market : Market) (body : Body F) (d : Envelope F)
    (yield : Record) (k : Nat) (price change percent : Nat → F)
    (hd : unmarshal body = .ok d)
    (hy : market.Yield = some yield)
    (hk : k < 12)
    (hgood : ∀ i, i < k →
      numberAt (resultsOf d) i "regularMarketPrice" = some (price i) ∧
      numberAt (resultsOf d) i "regularMarketChange" = some (change i) ∧
      numberAt (resultsOf d) i "regularMarketChangePercent" = some (percent i))
    (hbad : validAt (resultsOf d) k = false) :
    ∃ p, assign float2Str (resultsOf d) k (changeAsPercentAt k) = .error p ∧
      Ok (FetchYahoo describe float2Str market (.body body))
        = (false, "Error fetching market data...\n" ++ describe p) ∧
      (∀ i, i < k →
        (FetchYahoo describe float2Str market (.body body)).record i
          = some (specRecord float2Str (changeAsPercentAt i) (price i) (change i) (percent i))) ∧
      (∀ i, k < i → i < 12 →
        (FetchYahoo describe float2Str market (.body body)).record i = market.record i) ∧
      (FetchYahoo describe float2Str market (.body body)).record k
        = if k = 7 then some (yield.set "name" "10-year Yield") else market.record k := by
  obtain ⟨p, hp⟩ := assign_error_of_invalid float2Str (changeAsPercentAt k) hbad
  have a (i : Nat) (hi : i < k) :
      assign float2Str (resultsOf d) i (changeAsPercentAt i)
        = .ok (specRecord float2Str (changeAsPercentAt i) (price i) (change i) (percent i)) :=
    assign_of_numbers float2Str _ (hgood i hi).1 (hgood i hi).2.1 (hgood i hi).2.2
  have e := errorText_ne_empty (describe p)
  refine ⟨p, hp, ?_⟩
  have a0 := a 0
  have a1 := a 1
  have a2 := a 2
  have a3 := a 3
  have a4 := a 4
  have a5 := a 5
  have a6 := a 6
  have a7 := a 7
  have a8 := a 8
  have a9 := a 9
  have a10 := a 10
  have a11 := a 11
  clear a hgood hbad
  simp only [changeAsPercentAt] at hp a0 a1 a2 a3 a4 a5 a6 a7 a8 a9 a10 a11
  interval_cases k
  all_goals simp only [Nat.reduceLeDiff, decide_False, decide_True, Nat.lt_irrefl, Nat.reduceLT,
    forall_const, false_implies, Nat.not_lt_zero] at hp a0 a1 a2 a3 a4 a5 a6 a7 a8 a9 a10 a11
  all_goals refine ⟨?_, ?_, ?_, ?_⟩
  all_goals first
    | (intro i hi hi'
       interval_cases i <;>
        simp [FetchYahoo, fetchYahooBody, isMarketOpen, extract, hd, setYieldName, hy, hp,
          Market.record, changeAsPercentAt, *])
    | (intro i hi
       interval_cases i <;>
        simp [FetchYahoo, fetchYahooBody, isMarketOpen, extract, hd, setYieldName, hy, hp,
          Market.record, changeAsPercentAt, *])
    | simp [FetchYahoo, fetchYahooBody, isMarketOpen, extract, hd, setYieldName, hy, hp, Ok,
        Market.record, e, *]

/-- Witness of the amended C3 on the broken body, whose first bad position is
3: Dow is extracted, Gold is not, and `Ok` returns false. -/
theorem fetch_stops_at_first_bad_position_witness :
    validAt (resultsOf brokenEnvelope) 3 = false ∧
    ∃ p, assign (fun s => s) (resultsOf brokenEnvelope) 3 (changeAsPercentAt 3) = .error p ∧
      Ok (FetchYahoo sampleDescribe (fun s => s) sampleMarket (.body brokenBody))
        = (false, "Error fetching market data...\n" ++ sampleDescribe p) ∧
      (∀ i, i < 3 →
        (FetchYahoo sampleDescribe (fun s => s) sampleMarket (.body brokenBody)).record i
          = some (specRecord (fun s => s) (changeAsPercentAt i) (samplePrice i) (sampleChange i)
              (samplePercent i))) ∧
      (∀ i, 3 < i → i < 12 →
        (FetchYahoo sampleDescribe (fun s => s) sampleMarket (.body brokenBody)).record i
          = sampleMarket.record i) ∧
      (FetchYahoo sampleDescribe (fun s => s) sampleMarket (.body brokenBody)).record 3
        = if 3 = 7 then some (Record.set [] "name" "10-year Yield") else sampleMarket.record 3 :=
  ⟨by decide,
    fetch_stops_at_first_bad_position sampleDescribe (fun s => s) sampleMarket brokenBody
      brokenEnvelope [] 3 samplePrice sampleChange samplePercent rfl (by decide) (by decide)
      (by decide) (by decide)⟩

/-- C4: when the top-level envelope of the body is malformed (the body does
not decode into the target type, or the key quoteResponse is missing, or its
key result is), the body of `FetchYahoo` panics with the receiver untouched,
the deferred function recovers the panic, and `FetchYahoo` returns the
receiver with only `errors` changed; `Ok` then returns false and a non-empty
message. -/
theorem malformed_envelope_sets_error {F : Type} (describe : Panic → String)
    (float2Str : F → String) (market : Market) (body : Body F)
    (h : envelopeMalformed body = true) :
    ∃ p, fetchYahooBody float2Str market (.body body) = (market, some p) ∧
      FetchYahoo describe float2Str market (.body body)
        = { market with errors := "Error fetching market data...\n" ++ describe p } ∧
      (Ok (FetchYahoo describe float2Str market (.body body))).1 = false ∧
      (Ok (FetchYahoo describe float2Str market (.body body))).2 ≠ "" := by
  have key : ∃ p, extract float2Str market body = (market, some p) := by
    unfold envelopeMalformed at h
    cases hu : unmarshal body with
    | error e => exact ⟨e, by simp [extract, hu]⟩
    | ok d =>
      have hr : resultsOf d = [] := by
        simp only [hu] at h
        unfold resultsOf
        cases hq : lookupLast "quoteResponse" d with
        | none => simp [lookupLast]
        | some q =>
          simp only [hq, Option.isNone_iff_eq_none] at h
          simp [h]
      exact ⟨.indexOutOfRange 0 0, by simp [extract, hu, hr, assign]⟩
  obtain ⟨p, hp⟩ := key
  have e := errorText_ne_empty (describe p)
  refine ⟨p, ?_, ?_, ?_, ?_⟩ <;>
    simp [FetchYahoo, fetchYahooBody, isMarketOpen, hp, Ok, e]

/-- Witness of C4 on a body without the key quoteResponse. -/
theorem malformed_envelope_sets_error_witness :
    envelopeMalformed noEnvelopeBody = true ∧
    ∃ p, fetchYahooBody (fun s => s) sampleMarket (.body noEnvelopeBody)
        = (sampleMarket, some p) ∧
      FetchYahoo sampleDescribe (fun s => s) sampleMarket (.body noEnvelopeBody)
        = { sampleMarket with errors := "Error fetching market data...\n" ++ sampleDescribe p } ∧
      (Ok (FetchYahoo sampleDescribe (fun s => s) sampleMarket (.body noEnvelopeBody))).1 = false ∧
      (Ok (FetchYahoo sampleDescribe (fun s => s) sampleMarket (.body noEnvelopeBody))).2 ≠ "" :=
  ⟨by decide,
    malformed_envelope_sets_error sampleDescribe (fun s => s) sampleMarket noEnvelopeBody
      (by decide)⟩

/-- C7: the error text after `FetchYahoo` is fixed by the outcome of that
cycle alone.  Whatever text `previous` was stored before, the text afterwards
is empty when the body of the cycle ran without panic, and is "Error fetching
market data..." with a line break and the description of the panic when it
did; `Ok` returns (true, "") in the first case and false with that text in
the second; the whole Market returned is the one returned when the stored
text was any other. -/
theorem error_state_is_cycle_scoped {F : Type} (describe : Panic → String)
    (float2Str : F → String) (market : Market) (response : Response F) (previous : String) :
    (FetchYahoo describe float2Str { market with errors := previous } response).errors
        = (match (fetchYahooBody float2Str market response).2 with
            | none => ""
            | some err => "Error fetching market data...\n" ++ describe err) ∧
      Ok (FetchYahoo describe float2Str { market with errors := previous } response)
        = (match (fetchYahooBody float2Str market response).2 with
            | none => (true, "")
            | some err => (false, "Error fetching market data...\n" ++ describe err)) ∧
      FetchYahoo describe float2Str { market with errors := previous } response
        = FetchYahoo describe float2Str market response := by
  have hsame : FetchYahoo describe float2Str { market with errors := previous } response
      = FetchYahoo describe float2Str market response :=
    (FetchYahoo_rest describe float2Str market response market.vendor market.IsClosed
      market.Szzs market.Szcz market.Hs300 market.Cybz market.regex previous market.url
      market.cookies market.crumb).trans (FetchYahoo_frame describe float2Str market response).symm
  rw [hsame, FetchYahoo_eq]
  refine ⟨?_, ?_, rfl⟩
  · cases (fetchYahooBody float2Str market response).2 <;> rfl
  · cases h : (fetchYahooBody float2Str market response).2 with
    | none => simp [Ok, errorText]
    | some err => simp [Ok, errorText, errorText_ne_empty]

theorem hasPercentSuffix_append (s : String) : hasPercentSuffix (s ++ "%") = true := by
  have h : (s ++ "%").data = s.data ++ ['%'] := rfl
  simp [hasPercentSuffix, h]

theorem hasPercentSuffix_of_plain {s : String} (h : '%' ∉ s.data) :
    hasPercentSuffix s = false := by
  cases hs : hasPercentSuffix s with
  | false => rfl
  | true =>
    simp only [hasPercentSuffix, beq_iff_eq] at hs
    exact absurd (List.mem_of_getLast?_eq_some hs) h

/-- C8, as the code behaves: `assign` without the flag on an element whose
numbers render as "70.1", "-1.5" and "-2.3" (a rendering that never yields
"%") gives a record in which neither change nor percent ends in "%"; with the
flag it gives a record whose change ends in "%" and which has no percent
field to hold the unsuffixed value. -/
theorem assign_suffix_counterexample :
    (∀ x : Sample, '%' ∉ x.render.data) ∧
    assign Sample.render [oilEntry] 0 false
      = .ok [("change", "-1.5"), ("latest", "70.1"), ("percent", "-2.3")] ∧
    hasPercentSuffix "-1.5" = false ∧ hasPercentSuffix "-2.3" = false ∧
    assign Sample.render [oilEntry] 0 true
      = .ok [("change", "-2.3%"), ("latest", "70.1")] ∧
    Record.get [("change", "-2.3%"), ("latest", "70.1")] "percent" = none := by
  refine ⟨?_, rfl, by decide, by decide, rfl, by decide⟩
  intro x
  cases x <;> decide

/-- C8, amended: for every record `assign` produces, with `float2Str` yielding
text that contains no "%": with the flag set the record is change =
float2Str(changePercent) followed by "%", latest = float2Str(price), so change
carries the suffix and there is no percent field; with the flag clear the
record is change = float2Str(change), latest = float2Str(price), percent =
float2Str(changePercent), and neither change nor percent carries the suffix. -/
theorem assign_percent_suffix {F : Type} (float2Str : F → String)
    (results : List (Entry F)) (position : Nat) (changeAsPercent : Bool) (r : Record)
    (hplain : ∀ x, '%' ∉ (float2Str x).data)
    (h : assign float2Str results position changeAsPercent = .ok r) :
    ∃ price change percent,
      numberAt results position "regularMarketPrice" = some price ∧
      numberAt results position "regularMarketChange" = some change ∧
      numberAt results position "regularMarketChangePercent" = some percent ∧
      r.get "latest" = some (float2Str price) ∧
      hasPercentSuffix (float2Str price) = false ∧
      (changeAsPercent = true →
        r = [("change", float2Str percent ++ "%"), ("latest", float2Str price)] ∧
        r.get "change" = some (float2Str percent ++ "%") ∧
        hasPercentSuffix (float2Str percent ++ "%") = true ∧
        r.get "percent" = none) ∧
      (changeAsPercent = false →
        r = [("change", float2Str change), ("latest", float2Str price),
          ("percent", float2Str percent)] ∧
        r.get "change" = some (float2Str change) ∧
        hasPercentSuffix (float2Str change) = false ∧
        r.get "percent" = some (float2Str percent) ∧
        hasPercentSuffix (float2Str percent) = false) := by
  obtain ⟨price, change, percent, hp, hc, hq, hr⟩ := assign_ok_inv float2Str h
  refine ⟨price, change, percent, hp, hc, hq, ?_, hasPercentSuffix_of_plain (hplain price), ?_, ?_⟩
  · cases changeAsPercent <;> simp [hr, specRecord, Record.get]
  · intro hflag
    subst hflag
    refine ⟨by simp [hr, specRecord], by simp [hr, specRecord, Record.get],
      hasPercentSuffix_append _, by simp [hr, specRecord, Record.get]⟩
  · intro hflag
    subst hflag
    refine ⟨by simp [hr, specRecord], by simp [hr, specRecord, Record.get],
      hasPercentSuffix_of_plain (hplain change), by simp [hr, specRecord, Record.get],
      hasPercentSuffix_of_plain (hplain percent)⟩

/-- Witness of the amended C8 on one element, without the flag. -/
theorem assign_percent_suffix_witness :
    (∀ x : Sample, '%' ∉ x.render.data) ∧
    assign Sample.render [oilEntry] 0 false
      = .ok [("change", "-1.5"), ("latest", "70.1"), ("percent", "-2.3")] ∧
    ∃ price change percent,
      numberAt [oilEntry] 0 "regularMarketPrice" = some price ∧
      numberAt [oilEntry] 0 "regularMarketChange" = some change ∧
      numberAt [oilEntry] 0 "regularMarketChangePercent" = some percent ∧
      Record.get [("change", "-1.5"), ("latest", "70.1"), ("percent", "-2.3")] "latest"
        = some price.render ∧
      hasPercentSuffix price.render = false ∧
      (false = true →
        [("change", "-1.5"), ("latest", "70.1"), ("percent", "-2.3")]
          = [("change", percent.render ++ "%"), ("latest", price.render)] ∧
        Record.get [("change", "-1.5"), ("latest", "70.1"), ("percent", "-2.3")] "change"
          = some (percent.render ++ "%") ∧
        hasPercentSuffix (percent.render ++ "%") = true ∧
        Record.get [("change", "-1.5"), ("latest", "70.1"), ("percent", "-2.3")] "percent"
          = none) ∧
      (false = false →
        [("change", "-1.5"), ("latest", "70.1"), ("percent", "-2.3")]
          = [("change", change.render), ("latest", price.render), ("percent", percent.render)] ∧
        Record.get [("change", "-1.5"), ("latest", "70.1"), ("percent", "-2.3")] "change"
          = some change.render ∧
        hasPercentSuffix change.render = false ∧
        Record.get [("change", "-1.5"), ("latest", "70.1"), ("percent", "-2.3")] "percent"
          = some percent.render ∧
        hasPercentSuffix percent.render = false) :=
  ⟨fun x => by cases x <;> decide, rfl,
    assign_percent_suffix Sample.render [oilEntry] 0 false _
      (fun x => by cases x <;> decide) rfl⟩

theorem extract_ok_inv {F : Type} (float2Str : F → String) {market after : Market}
    {body : Body F} (h : extract float2Str market body = (after, none)) :
    ∃ d old r, unmarshal body = .ok d ∧ market.Yield = some old ∧
      assign float2Str (resultsOf d) 7 false = .ok r ∧ after.Yield = some r := by
  unfold extract setYieldName at h
  cases hY : market.Yield with
  | none =>
    simp only [hY] at h
    exfalso
    revert h
    repeat' split
    all_goals simp
  | some old =>
    simp only [hY] at h
    revert h
    repeat' split
    all_goals first
      | (intro h; simp at h; done)
      | (intro h; exact ⟨_, _, _, by assumption, rfl, by assumption, by cases h; rfl⟩)

/-- C10: whenever `extract` returns without panic, the Yield map was allocated
before the call, and the Yield record afterwards is the result of `assign` for
position 7: its keys are exactly latest, change and percent, and it has no key
name.  The name written into the old Yield map just before is not in it. -/
theorem yield_record_has_no_name {F : Type} (float2Str : F → String) (market after : Market)
    (body : Body F) (h : extract float2Str market body = (after, none)) :
    ∃ d old r,
      unmarshal body = .ok d ∧
      market.Yield = some old ∧
      assign float2Str (resultsOf d) 7 false = .ok r ∧
      after.Yield = some r ∧
      (∀ k, r.get k ≠ none ↔ (k = "latest" ∨ k = "change" ∨ k = "percent")) ∧
      r.get "name" = none ∧
      after.Yield.get "name" = none := by
  obtain ⟨d, old, r, hd, hold, h7, hafter⟩ := extract_ok_inv float2Str h
  obtain ⟨price, change, percent, -, -, -, hr⟩ := assign_ok_inv float2Str h7
  refine ⟨d, old, r, hd, hold, h7, hafter, ?_, ?_, ?_⟩
  · intro k
    simp only [hr, specRecord, Bool.false_eq_true, if_false, Record.get]
    constructor
    · intro hk
      split_ifs at hk with h1 h2 h3
      · exact Or.inr (Or.inl h1.symm)
      · exact Or.inl h2.symm
      · exact Or.inr (Or.inr h3.symm)
      · exact absurd rfl hk
    · rintro (rfl | rfl | rfl) <;> simp
  · simp [hr, specRecord, Record.get]
  · rw [hafter]
    simp [hr, specRecord, Record.get, GoMap.get]

/-- Witness of C10 on the sample body. -/
theorem yield_record_has_no_name_witness :
    ∃ after, extract (fun s => s) sampleMarket sampleBody = (after, none) ∧
      ∃ d old r,
        unmarshal sampleBody = .ok d ∧
        sampleMarket.Yield = some old ∧
        assign (fun s => s) (resultsOf d) 7 false = .ok r ∧
        after.Yield = some r ∧
        (∀ k, r.get k ≠ none ↔ (k = "latest" ∨ k = "change" ∨ k = "percent")) ∧
        r.get "name" = none ∧
        after.Yield.get "name" = none :=
  ⟨(extract (fun s => s) sampleMarket sampleBody).1, Prod.ext rfl (by decide),
    yield_record_has_no_name (fun s => s) sampleMarket _ sampleBody (Prod.ext rfl (by decide))⟩

theorem FetchYahoo_vendor {F : Type} (describe : Panic → String) (float2Str : F → String)
    (market : Market) (response : Response F) (v : APISourceType) :
    FetchYahoo describe float2Str { market with vendor := v } response
      = { FetchYahoo describe float2Str market response with vendor := v } :=
  (FetchYahoo_rest describe float2Str market response v market.IsClosed market.Szzs market.Szcz
    market.Hs300 market.Cybz market.regex market.errors market.url market.cookies
    market.crumb).trans
    (congrArg (fun m : Market => { m with vendor := v })
      (FetchYahoo_frame describe float2Str market response).symm)

/-- C5: for each of the six vendors with the CN overlay, provided the call of
`FetchQQ` leaves the twelve primary records and the `IsClosed` flag of its
receiver as it found them, the Market that `Fetch` returns has the records
Dow, Nasdaq, Sp500, Tokyo, HongKong, London, Frankfurt, Yield, Oil, Yen, Euro,
Gold and the flag `IsClosed` equal to those of the Market that `Fetch` returns
for the vendor YAHOO from the same starting state and the same primary
response. -/
theorem overlay_keeps_primary_records {F : Type} (describe : Panic → String)
    (float2Str : F → String) (FetchQQ : Market → QQCall) (market : Market)
    (response : Response F) (v : APISourceType)
    (hv : v = .API_VENDOR_QQ ∨ v = .API_VENDOR_SINA ∨ v = .API_VENDOR_NETEASE ∨
      v = .API_VENDOR_EASTMONEY ∨ v = .API_VENDOR_LIMITUP_EASTMONEY ∨
      v = .API_VENDOR_LHB_EASTMONEY)
    (hframe : ∀ m, (FetchQQ m).receiver.primaryView = m.primaryView) :
    (Fetch describe float2Str FetchQQ { market with vendor := v } response).primaryView
      = (Fetch describe float2Str FetchQQ { market with vendor := .API_VENDOR_YAHOO }
          response).primaryView := by
  have hy : ∀ w, (FetchYahoo describe float2Str { market with vendor := w } response).primaryView
      = (FetchYahoo describe float2Str market response).primaryView := by
    intro w
    rw [FetchYahoo_vendor]
    rfl
  have hq := hframe (FetchYahoo describe float2Str { market with vendor := v } response)
  have key : (Fetch describe float2Str FetchQQ { market with vendor := v } response).primaryView
      = (FetchQQ (FetchYahoo describe float2Str { market with vendor := v }
          response)).receiver.primaryView := by
    rcases hv with h | h | h | h | h | h <;> subst h <;> rfl
  rw [key, hq, hy]
  exact (hy _).symm

/-- Witness of C5 for the vendor NETEASE on the sample body. -/
theorem overlay_keeps_primary_records_witness :
    (Fetch sampleDescribe (fun s => s) sampleFetchQQ
        { sampleMarket with vendor := .API_VENDOR_NETEASE } (.body sampleBody)).primaryView
      = (Fetch sampleDescribe (fun s => s) sampleFetchQQ
          { sampleMarket with vendor := .API_VENDOR_YAHOO } (.body sampleBody)).primaryView :=
  overlay_keeps_primary_records sampleDescribe (fun s => s) sampleFetchQQ sampleMarket
    (.body sampleBody) .API_VENDOR_NETEASE (Or.inr (Or.inr (Or.inl rfl))) (fun _ => rfl)

/-- C6: `Fetch` overlays whole records by vendor.  For QQ, SINA, EASTMONEY,
LIMITUP_EASTMONEY and LHB_EASTMONEY the result is one and the same function of
the two Markets at hand, the receiver after both fetches and the Market that
`FetchQQ` returned: the receiver with Szzs, Szcz, Hs300 and Cybz replaced by
the records of the latter, each record as a whole.  For NETEASE only Szzs and
Szcz are replaced; Hs300 and Cybz are those of the receiver, which are the
ones `FetchYahoo` returned when `FetchQQ` does not write them.  For YAHOO and
for a vendor that is none of the named ones the result is that of
`FetchYahoo`. -/
theorem overlay_replaces_whole_records {F : Type} (describe : Panic → String)
    (float2Str : F → String) (FetchQQ : Market → QQCall) (market : Market)
    (response : Response F)
    (hkeep : ∀ m, (FetchQQ m).receiver.Hs300 = m.Hs300 ∧ (FetchQQ m).receiver.Cybz = m.Cybz) :
    (∀ v, v ∈ [APISourceType.API_VENDOR_QQ, .API_VENDOR_SINA, .API_VENDOR_EASTMONEY,
        .API_VENDOR_LIMITUP_EASTMONEY, .API_VENDOR_LHB_EASTMONEY] →
      Fetch describe float2Str FetchQQ { market with vendor := v } response
        = overlayFour
            (FetchQQ (FetchYahoo describe float2Str { market with vendor := v } response)).receiver
            (FetchQQ (FetchYahoo describe float2Str { market with vendor := v } response)).result
      ∧ (Fetch describe float2Str FetchQQ { market with vendor := v } response).cnView
        = (FetchQQ (FetchYahoo describe float2Str { market with vendor := v }
            response)).result.cnView) ∧
    Fetch describe float2Str FetchQQ { market with vendor := .API_VENDOR_NETEASE } response
      = overlayTwo
          (FetchQQ (FetchYahoo describe float2Str { market with vendor := .API_VENDOR_NETEASE }
            response)).receiver
          (FetchQQ (FetchYahoo describe float2Str { market with vendor := .API_VENDOR_NETEASE }
            response)).result ∧
    (Fetch describe float2Str FetchQQ { market with vendor := .API_VENDOR_NETEASE } response).Szzs
      = (FetchQQ (FetchYahoo describe float2Str { market with vendor := .API_VENDOR_NETEASE }
          response)).result.Szzs ∧
    (Fetch describe float2Str FetchQQ { market with vendor := .API_VENDOR_NETEASE } response).Szcz
      = (FetchQQ (FetchYahoo describe float2Str { market with vendor := .API_VENDOR_NETEASE }
          response)).result.Szcz ∧
    (Fetch describe float2Str FetchQQ { market with vendor := .API_VENDOR_NETEASE } response).Hs300
      = (FetchYahoo describe float2Str { market with vendor := .API_VENDOR_NETEASE }
          response).Hs300 ∧
    (Fetch describe float2Str FetchQQ { market with vendor := .API_VENDOR_NETEASE } response).Cybz
      = (FetchYahoo describe float2Str { market with vendor := .API_VENDOR_NETEASE }
          response).Cybz ∧
    Fetch describe float2Str FetchQQ { market with vendor := .API_VENDOR_YAHOO } response
      = FetchYahoo describe float2Str { market with vendor := .API_VENDOR_YAHOO } response ∧
    (∀ n, Fetch describe float2Str FetchQQ { market with vendor := .other n } response
      = FetchYahoo describe float2Str { market with vendor := .other n } response) := by
  refine ⟨?_, rfl, rfl, rfl, ?_, ?_, rfl, fun _ => rfl⟩
  · intro v hv
    simp only [List.mem_cons, List.mem_singleton, List.not_mem_nil, or_false] at hv
    rcases hv with h | h | h | h | h <;> subst h <;> exact ⟨rfl, rfl⟩
  · exact (hkeep _).1
  · exact (hkeep _).2

/-- Witness of C6 on the sample body: for NETEASE the record Szzs is the one
`sampleFetchQQ` returns and Hs300 is the empty map of the fresh Market. -/
theorem overlay_replaces_whole_records_witness :
    (Fetch sampleDescribe (fun s => s) sampleFetchQQ
        { sampleMarket with vendor := .API_VENDOR_NETEASE } (.body sampleBody)).Szzs
      = some [("latest", "3050.1")] ∧
    (Fetch sampleDescribe (fun s => s) sampleFetchQQ
        { sampleMarket with vendor := .API_VENDOR_NETEASE } (.body sampleBody)).Hs300
      = some [] ∧
    (Fetch sampleDescribe (fun s => s) sampleFetchQQ
        { sampleMarket with vendor := .API_VENDOR_EASTMONEY } (.body sampleBody)).Hs300
      = some [("latest", "3550.3")] := by
  have h := overlay_replaces_whole_records sampleDescribe (fun s => s) sampleFetchQQ sampleMarket
    (.body sampleBody) (fun _ => ⟨rfl, rfl⟩)
  refine ⟨?_, ?_, ?_⟩
  · rw [h.2.2.1]; rfl
  · rw [h.2.2.2.2.1]; decide
  · rw [(h.1 .API_VENDOR_EASTMONEY (by decide)).1]; rfl

theorem FetchYahoo_wellFormed {F : Type} (describe : Panic → String) (float2Str : F → String)
    (market : Market) (body : Body F) (hwf : wellFormed body = true)
    (hy : market.Yield.isSome = true) :
    ∃ d, unmarshal body = .ok d ∧
      (FetchYahoo describe float2Str market (.body body)).errors = "" ∧
      (FetchYahoo describe float2Str market (.body body)).quoteRecords
        = [ (assign float2Str (resultsOf d) 0 false).toOption,
            (assign float2Str (resultsOf d) 1 false).toOption,
            (assign float2Str (resultsOf d) 2 false).toOption,
            (assign float2Str (resultsOf d) 3 false).toOption,
            (assign float2Str (resultsOf d) 4 false).toOption,
            (assign float2Str (resultsOf d) 5 false).toOption,
            (assign float2Str (resultsOf d) 6 false).toOption,
            (assign float2Str (resultsOf d) 7 false).toOption,
            (assign float2Str (resultsOf d) 8 true).toOption,
            (assign float2Str (resultsOf d) 9 true).toOption,
            (assign float2Str (resultsOf d) 10 true).toOption,
            (assign float2Str (resultsOf d) 11 true).toOption ] := by
  unfold wellFormed at hwf
  cases hu : unmarshal body with
  | error e => simp [hu] at hwf
  | ok d =>
    simp only [hu, List.all_eq_true, List.mem_range] at hwf
    obtain ⟨old, hold⟩ := Option.isSome_iff_exists.mp hy
    obtain ⟨r0, h0⟩ := assign_ok_of_valid float2Str false (hwf 0 (by decide))
    obtain ⟨r1, h1⟩ := assign_ok_of_valid float2Str false (hwf 1 (by decide))
    obtain ⟨r2, h2⟩ := assign_ok_of_valid float2Str false (hwf 2 (by decide))
    obtain ⟨r3, h3⟩ := assign_ok_of_valid float2Str false (hwf 3 (by decide))
    obtain ⟨r4, h4⟩ := assign_ok_of_valid float2Str false (hwf 4 (by decide))
    obtain ⟨r5, h5⟩ := assign_ok_of_valid float2Str false (hwf 5 (by decide))
    obtain ⟨r6, h6⟩ := assign_ok_of_valid float2Str false (hwf 6 (by decide))
    obtain ⟨r7, h7⟩ := assign_ok_of_valid float2Str false (hwf 7 (by decide))
    obtain ⟨r8, h8⟩ := assign_ok_of_valid float2Str true (hwf 8 (by decide))
    obtain ⟨r9, h9⟩ := assign_ok_of_valid float2Str true (hwf 9 (by decide))
    obtain ⟨r10, h10⟩ := assign_ok_of_valid float2Str true (hwf 10 (by decide))
    obtain ⟨r11, h11⟩ := assign_ok_of_valid float2Str true (hwf 11 (by decide))
    refine ⟨d, rfl, ?_, ?_⟩ <;>
      simp [FetchYahoo, fetchYahooBody, isMarketOpen, extract, hu, setYieldName, hold, h0, h1,
        h2, h3, h4, h5, h6, h7, h8, h9, h10, h11, Market.quoteRecords, Except.toOption]

theorem FetchYahoo_cn {F : Type} (describe : Panic → String) (float2Str : F → String)
    (market : Market) (response : Response F) (s₁ s₂ s₃ s₄ : GoMap) :
    FetchYahoo describe float2Str
        { FetchYahoo describe float2Str market response with
          Szzs := s₁, Szcz := s₂, Hs300 := s₃, Cybz := s₄ } response
      = { FetchYahoo describe float2Str market response with
          Szzs := s₁, Szcz := s₂, Hs300 := s₃, Cybz := s₄ } := by
  have h := FetchYahoo_rest describe float2Str (FetchYahoo describe float2Str market response)
    response (FetchYahoo describe float2Str market response).vendor
    (FetchYahoo describe float2Str market response).IsClosed s₁ s₂ s₃ s₄
    (FetchYahoo describe float2Str market response).regex
    (FetchYahoo describe float2Str market response).errors
    (FetchYahoo describe float2Str market response).url
    (FetchYahoo describe float2Str market response).cookies
    (FetchYahoo describe float2Str market response).crumb
  rw [FetchYahoo_idem] at h
  exact h

/-- C9: `Fetch` run twice in succession with the same responses returns the
same Market as run once, in every record and in the error text: for every
vendor and every starting state, with `FetchQQ` leaving its receiver alone and
returning the same four CN records on both runs.  `FetchYahoo` alone has this
property for every starting state and every response.  And for a well-formed
response (it decodes, positions 0 to 11 are valid) the twelve records and the
error text after `FetchYahoo` are the same from any two starting states whose
Yield map is allocated. -/
theorem fetch_twice_same_snapshot {F : Type} (describe : Panic → String)
    (float2Str : F → String) (FetchQQ : Market → QQCall) (market market' : Market)
    (response : Response F)
    (hreceiver : ∀ m, (FetchQQ m).receiver = m)
    (hresult : ∀ m m', (FetchQQ m).result.cnView = (FetchQQ m').result.cnView) :
    Fetch describe float2Str FetchQQ (Fetch describe float2Str FetchQQ market response) response
      = Fetch describe float2Str FetchQQ market response ∧
    FetchYahoo describe float2Str (FetchYahoo describe float2Str market response) response
      = FetchYahoo describe float2Str market response ∧
    (∀ body, response = .body body → wellFormed body = true →
      market.Yield.isSome = true → market'.Yield.isSome = true →
      (FetchYahoo describe float2Str market response).quoteRecords
        = (FetchYahoo describe float2Str market' response).quoteRecords ∧
      (FetchYahoo describe float2Str market response).errors = "" ∧
      (FetchYahoo describe float2Str market' response).errors = "") := by
  refine ⟨?_, FetchYahoo_idem describe float2Str market response, ?_⟩
  · have hvendor : (FetchYahoo describe float2Str market response).vendor = market.vendor := by
      rw [FetchYahoo_frame describe float2Str market response]
    have hcn (m m' : Market) :
        (FetchQQ m).result.Szzs = (FetchQQ m').result.Szzs ∧
        (FetchQQ m).result.Szcz = (FetchQQ m').result.Szcz ∧
        (FetchQQ m).result.Hs300 = (FetchQQ m').result.Hs300 ∧
        (FetchQQ m).result.Cybz = (FetchQQ m').result.Cybz := by
      have h := hresult m m'
      simp only [Market.cnView, List.cons.injEq, and_true] at h
      exact h
    have four (hfour : Fetch describe float2Str FetchQQ market response
          = overlayFour (FetchYahoo describe float2Str market response)
              (FetchQQ (FetchYahoo describe float2Str market response)).result)
        (hagain : ∀ m, m.vendor = market.vendor →
          Fetch describe float2Str FetchQQ m response
            = overlayFour (FetchYahoo describe float2Str m response)
                (FetchQQ (FetchYahoo describe float2Str m response)).result) :
        Fetch describe float2Str FetchQQ (Fetch describe float2Str FetchQQ market response)
            response
          = Fetch describe float2Str FetchQQ market response := by
      rw [hagain _ (by rw [hfour]; exact hvendor), hfour]
      unfold overlayFour
      rw [FetchYahoo_cn]
      obtain ⟨e1, e2, e3, e4⟩ := hcn
        { FetchYahoo describe float2Str market response with
          Szzs := (FetchQQ (FetchYahoo describe float2Str market response)).result.Szzs
          Szcz := (FetchQQ (FetchYahoo describe float2Str market response)).result.Szcz
          Hs300 := (FetchQQ (FetchYahoo describe float2Str market response)).result.Hs300
          Cybz := (FetchQQ (FetchYahoo describe float2Str market response)).result.Cybz }
        (FetchYahoo describe float2Str market response)
      simp only [e1, e2, e3, e4]
    have two (htwo : Fetch describe float2Str FetchQQ market response
          = overlayTwo (FetchYahoo describe float2Str market response)
              (FetchQQ (FetchYahoo describe float2Str market response)).result)
        (hagain : ∀ m, m.vendor = market.vendor →
          Fetch describe float2Str FetchQQ m response
            = overlayTwo (FetchYahoo describe float2Str m response)
                (FetchQQ (FetchYahoo describe float2Str m response)).result) :
        Fetch describe float2Str FetchQQ (Fetch describe float2Str FetchQQ market response)
            response
          = Fetch describe float2Str FetchQQ market response := by
      rw [hagain _ (by rw [htwo]; exact hvendor), htwo]
      unfold overlayTwo
      have h := FetchYahoo_cn describe float2Str market response
        (FetchQQ (FetchYahoo describe float2Str market response)).result.Szzs
        (FetchQQ (FetchYahoo describe float2Str market response)).result.Szcz
        (FetchYahoo describe float2Str market response).Hs300
        (FetchYahoo describe float2Str market response).Cybz
      obtain ⟨e1, e2, -, -⟩ := hcn
        { FetchYahoo describe float2Str market response with
          Szzs := (FetchQQ (FetchYahoo describe float2Str market response)).result.Szzs
          Szcz := (FetchQQ (FetchYahoo describe float2Str market response)).result.Szcz }
        (FetchYahoo describe float2Str market response)
      rw [show ({ FetchYahoo describe float2Str market response with
          Szzs := (FetchQQ (FetchYahoo describe float2Str market response)).result.Szzs
          Szcz := (FetchQQ (FetchYahoo describe float2Str market response)).result.Szcz } : Market)
        = { FetchYahoo describe float2Str market response with
          Szzs := (FetchQQ (FetchYahoo describe float2Str market response)).result.Szzs
          Szcz := (FetchQQ (FetchYahoo describe float2Str market response)).result.Szcz
          Hs300 := (FetchYahoo describe float2Str market response).Hs300
          Cybz := (FetchYahoo describe float2Str market response).Cybz } from rfl] at e1 e2 ⊢
      rw [h]
      simp only [e1, e2]
    have plain (hplain : Fetch describe float2Str FetchQQ market response
          = FetchYahoo describe float2Str market response)
        (hagain : ∀ m, m.vendor = market.vendor →
          Fetch describe float2Str FetchQQ m response = FetchYahoo describe float2Str m response) :
        Fetch describe float2Str FetchQQ (Fetch describe float2Str FetchQQ market response)
            response
          = Fetch describe float2Str FetchQQ market response := by
      rw [hagain _ (by rw [hplain]; exact hvendor), hplain, FetchYahoo_idem]
    cases hv : market.vendor with
    | API_VENDOR_YAHOO =>
      exact plain (by unfold Fetch; rw [hv]) (fun m hm => by unfold Fetch; rw [hm, hv])
    | other n =>
      exact plain (by unfold Fetch; rw [hv]) (fun m hm => by unfold Fetch; rw [hm, hv])
    | API_VENDOR_NETEASE =>
      exact two (by unfold Fetch; rw [hv]; simp only [hreceiver]; rfl)
        (fun m hm => by unfold Fetch; rw [hm, hv]; simp only [hreceiver]; rfl)
    | API_VENDOR_QQ =>
      exact four (by unfold Fetch; rw [hv]; simp only [hreceiver]; rfl)
        (fun m hm => by unfold Fetch; rw [hm, hv]; simp only [hreceiver]; rfl)
    | API_VENDOR_SINA =>
      exact four (by unfold Fetch; rw [hv]; simp only [hreceiver]; rfl)
        (fun m hm => by unfold Fetch; rw [hm, hv]; simp only [hreceiver]; rfl)
    | API_VENDOR_EASTMONEY =>
      exact four (by unfold Fetch; rw [hv]; simp only [hreceiver]; rfl)
        (fun m hm => by unfold Fetch; rw [hm, hv]; simp only [hreceiver]; rfl)
    | API_VENDOR_LIMITUP_EASTMONEY =>
      exact four (by unfold Fetch; rw [hv]; simp only [hreceiver]; rfl)
        (fun m hm => by unfold Fetch; rw [hm, hv]; simp only [hreceiver]; rfl)
    | API_VENDOR_LHB_EASTMONEY =>
      exact four (by unfold Fetch; rw [hv]; simp only [hreceiver]; rfl)
        (fun m hm => by unfold Fetch; rw [hm, hv]; simp only [hreceiver]; rfl)
  · intro body hbody hwf hy hy'
    subst hbody
    obtain ⟨d, hd, he, hr⟩ := FetchYahoo_wellFormed describe float2Str market body hwf hy
    obtain ⟨d', hd', he', hr'⟩ := FetchYahoo_wellFormed describe float2Str market' body hwf hy'
    rw [hd] at hd'
    cases hd'
    exact ⟨hr.trans hr'.symm, he, he'⟩

/-- Witness of C9 for the vendor QQ on the sample body, from a fresh Market
and from one that holds the records of an earlier failed cycle. -/
theorem fetch_twice_same_snapshot_witness :
    Fetch sampleDescribe (fun s => s) sampleFetchQQ
        (Fetch sampleDescribe (fun s => s) sampleFetchQQ
          { sampleMarket with vendor := .API_VENDOR_QQ } (.body sampleBody))
        (.body sampleBody)
      = Fetch sampleDescribe (fun s => s) sampleFetchQQ
          { sampleMarket with vendor := .API_VENDOR_QQ } (.body sampleBody) ∧
    (FetchYahoo sampleDescribe (fun s => s) { sampleMarket with vendor := .API_VENDOR_QQ }
        (.body sampleBody)).quoteRecords
      = (FetchYahoo sampleDescribe (fun s => s)
          (FetchYahoo sampleDescribe (fun s => s) sampleMarket (.body brokenBody))
          (.body sampleBody)).quoteRecords ∧
    (FetchYahoo sampleDescribe (fun s => s)
        (FetchYahoo sampleDescribe (fun s => s) sampleMarket (.body brokenBody))
        (.body sampleBody)).errors = "" := by
  have h := fetch_twice_same_snapshot sampleDescribe (fun s => s) sampleFetchQQ
    { sampleMarket with vendor := .API_VENDOR_QQ }
    (FetchYahoo sampleDescribe (fun s => s) sampleMarket (.body brokenBody))
    (.body sampleBody) (fun _ => rfl) (fun _ _ => rfl)
  have h3 := h.2.2 sampleBody rfl (by decide) (by decide) (by decide)
  exact ⟨h.1, h3.1, h3.2.2⟩

end TerminalStocks
